import Mathlib

/-!
Shallow embedding of the cart / order reconciliation slice of the
Evouqe e-commerce backend.

Sources embedded here:
* `src/Backend/controllers/orderController.ts` — `validateOrderData`,
  `placeOrder`, `placeOrderStripe`, `verifyStripe`, `updateOrderStatus`.
* `src/unnamed/part_011` (the cart controller) — `validateProductAndSize`,
  `addToCart`, `updateCart`, `removeFromCart`, `mergeCart`.

Modelling choices:
* The Mongo document stores (users, products, orders) become lists of
  records; `findById` / `findOne` become first-match lookups, `updateOne` /
  `findByIdAndUpdate` become first-match in-place updates, matching Mongo's
  single-document update semantics.  JavaScript objects used as maps
  (`cartData[productId][size]`) become association lists with JS object
  semantics: reading is first-match lookup, writing replaces the existing
  key in place or appends a fresh key at the end, `delete` removes the key.
* JavaScript numbers on the paths modelled here hold integers (prices,
  stock counts, quantities), so they are embedded as `Int`; stock may go
  negative exactly as a Mongo `$inc` can drive it negative.
* JS truthiness is preserved where the source relies on it: a number is
  truthy iff it is nonzero, a string is truthy iff it is nonempty, an
  object (a nested size map) is truthy iff the key is present.
* Express plumbing (req/res, logging, cookies vs. DB cart storage,
  `process.env` checks and the Stripe HTTP calls) is outside the DB model:
  the handlers are embedded as functions from the store state and request
  fields to `Except String` of the new state, an `error e` being the
  handler's thrown-and-caught failure response with message `e`, in which
  case no store write has happened (every `throw` in these handlers occurs
  before the first write).  The Stripe checkout session retrieved by
  `verifyStripe` is passed in as an optional value carrying its
  `payment_status` field.
-/

namespace Evouqe

/-- Model of `mongoose.Types.ObjectId.isValid` on the id strings used by the
controllers: a canonical ObjectId string is 24 hex characters. -/
def isValidObjectId (s : String) : Bool :=
  s.length = 24 && s.toList.all (fun c => c.isDigit || (('a' ≤ c) && (c ≤ 'f')))

/-- First-match lookup in an association list — JS object property read
(`m[k]`, `undefined` becoming `none`). -/
def lookupA {α : Type} : List (String × α) → String → Option α
  | [], _ => none
  | (k', v) :: rest, k => if k' = k then some v else lookupA rest k

/-- JS object property write `m[k] = v`: replace the first occurrence of the
key in place, or append the key if absent. -/
def setA {α : Type} : List (String × α) → String → α → List (String × α)
  | [], k, v => [(k, v)]
  | (k', v') :: rest, k, v =>
    if k' = k then (k, v) :: rest else (k', v') :: setA rest k v

/-- JS `delete m[k]`: drop the first occurrence of the key. -/
def eraseA {α : Type} : List (String × α) → String → List (String × α)
  | [], _ => []
  | (k', v') :: rest, k => if k' = k then rest else (k', v') :: eraseA rest k

/-- Inner level of `cartData`: size label ↦ quantity. -/
abbrev SizeMap := List (String × Int)

/-- Embeds `cartData`: product id ↦ (size ↦ quantity), as stored on the user
document or in the `cartData` cookie. -/
abbrev CartData := List (String × SizeMap)

/-- Product document (`productModel`): the fields read by the embedded
controllers. -/
structure Product where
  id : String
  name : String
  price : Int
  stock : Int
  sizes : List String
deriving Repr, DecidableEq

/-- User document (`userModel`): the fields read by the embedded
controllers. -/
structure User where
  uid : String
  cartData : CartData
deriving Repr, DecidableEq

/-- One entry of `itemsWithProductIds` / a persisted order line. -/
structure OrderLine where
  productId : String
  name : String
  quantity : Int
  price : Int
  size : Option String
deriving Repr, DecidableEq

/-- One entry of the request body's `items` array. -/
structure OrderItem where
  name : String
  price : Int
  quantity : Int
  size : Option String
deriving Repr, DecidableEq

/-- Order document (`orderModel`): the fields the embedded controllers read
or write. -/
structure OrderRec where
  oid : String
  userId : String
  items : List OrderLine
  totalAmount : Int
  paymentMethod : String
  payment : Bool
  status : String
deriving Repr, DecidableEq

/-- The shared database state: the three document stores. -/
structure DB where
  users : List User
  products : List Product
  orders : List OrderRec
deriving Repr, DecidableEq

/-- Embeds `userModel.findById`. -/
def findUser (us : List User) (uid : String) : Option User :=
  us.find? (fun u => u.uid = uid)

/-- Embeds `productModel.findById`. -/
def productById (ps : List Product) (pid : String) : Option Product :=
  ps.find? (fun p => p.id = pid)

/-- Embeds `orderModel.findById`. -/
def findOrder (os : List OrderRec) (oid : String) : Option OrderRec :=
  os.find? (fun o => o.oid = oid)

/-- The `productMap` lookup of `validateOrderData`: the map is built with
`Map.set` over the products whose name occurs in the request, so for a given
name the LAST catalog product with that name wins. -/
def productByName (ps : List Product) (n : String) : Option Product :=
  (ps.filter (fun p => p.name = n)).getLast?

/-- Embeds `DELIVERY_CHARGES` from `orderController.ts`. -/
def DELIVERY_CHARGES : Int := 50

/-- The size check of `validateOrderData`:
`item.size && !product.sizes.includes(item.size)` — an absent or empty
(falsy) size skips the check. -/
def sizeCheckFails (size : Option String) (p : Product) : Bool :=
  match size with
  | none => false
  | some s => (s ≠ ("")) && ¬ (s ∈ p.sizes)

/-- The `items.map` body of `validateOrderData`: walk the request items
left to right, throwing on the first invalid one, and otherwise accumulate
`itemsWithProductIds` together with `calculatedAmount`. -/
def validateItems (ps : List Product) : List OrderItem →
    Except String (List OrderLine × Int)
  | [] => .ok ([], 0)
  | item :: rest =>
    match productByName ps item.name with
    | none => .error (("Product ") ++ item.name ++ (" not found"))
    | some product =>
      if product.stock < item.quantity then
        .error (("Insufficient stock for ") ++ item.name)
      else if product.price ≠ item.price then
        .error (("Invalid price for ") ++ item.name)
      else if sizeCheckFails item.size product then
        .error (("Invalid size for ") ++ item.name)
      else
        match validateItems ps rest with
        | .error e => .error e
        | .ok (lines, amt) =>
          .ok ({ productId := product.id, name := item.name,
                 quantity := item.quantity, price := item.price,
                 size := item.size } :: lines,
               product.price * item.quantity + amt)

/-- Embeds `validateOrderData` from `orderController.ts`: validate the user id,
fetch the user, then validate every item. -/
def validateOrderData (db : DB) (userId : String) (items : List OrderItem) :
    Except String (User × List OrderLine × Int) :=
  if ¬ isValidObjectId userId then .error ("Invalid userId")
  else
    match findUser db.users userId with
    | none => .error ("User not found")
    | some user =>
      match validateItems db.products items with
      | .error e => .error e
      | .ok (lines, amt) => .ok (user, lines, amt)

/-- The request body of `placeOrder` / `placeOrderStripe` (the address
fields are persisted verbatim and never read back; they are elided). -/
structure OrderReq where
  userId : String
  items : List OrderItem
  amount : Int
deriving Repr, DecidableEq

/-- Embeds `productModel.updateOne({_id: pid}, {$inc: {stock: -q}})`: decrement the
stock of the first product with the given id. -/
def decStock : List Product → String → Int → List Product
  | [], _, _ => []
  | p :: rest, pid, q =>
    if p.id = pid then { p with stock := p.stock - q } :: rest
    else p :: decStock rest pid q

/-- The stock-update loop of `placeOrder` / `verifyStripe`: one `updateOne`
per order line, in order. -/
def applyDecs (ps : List Product) (lines : List OrderLine) : List Product :=
  lines.foldl (fun acc l => decStock acc l.productId l.quantity) ps

/-- Embeds `userModel.findByIdAndUpdate(userId, { cartData: {} })`. -/
def clearCart : List User → String → List User
  | [], _ => []
  | u :: rest, uid =>
    if u.uid = uid then { u with cartData := [] } :: rest
    else u :: clearCart rest uid

/-- Embeds `placeOrder` (COD path) from `orderController.ts`.  `newOid` stands for
the ObjectId Mongo mints for the new order document. -/
def placeOrder (db : DB) (req : OrderReq) (newOid : String) :
    Except String (DB × OrderRec) :=
  match validateOrderData db req.userId req.items with
  | .error e => .error e
  | .ok (_, lines, amt0) =>
    if amt0 + DELIVERY_CHARGES ≠ req.amount then .error ("Invalid total amount")
    else
      let ord : OrderRec :=
        { oid := newOid, userId := req.userId, items := lines,
          totalAmount := req.amount, paymentMethod := ("COD"),
          payment := false, status := ("Order Placed") }
      let db1 : DB := { db with orders := db.orders ++ [ord] }
      let db2 : DB := { db1 with products := applyDecs db1.products lines }
      let db3 : DB := { db2 with users := clearCart db2.users req.userId }
      .ok (db3, ord)

/-- Embeds `placeOrderStripe` from `orderController.ts`: same validation as the COD
path, persists the order with `payment: false`, then hands off to the
Stripe checkout session (external I/O, not part of the DB state) — no stock
decrement and no cart clearing happen at placement. -/
def placeOrderStripe (db : DB) (req : OrderReq) (newOid : String) :
    Except String (DB × OrderRec) :=
  match validateOrderData db req.userId req.items with
  | .error e => .error e
  | .ok (_, lines, amt0) =>
    if amt0 + DELIVERY_CHARGES ≠ req.amount then .error ("Invalid total amount")
    else
      let ord : OrderRec :=
        { oid := newOid, userId := req.userId, items := lines,
          totalAmount := req.amount, paymentMethod := ("Stripe"),
          payment := false, status := ("Order Placed") }
      .ok ({ db with orders := db.orders ++ [ord] }, ord)

/-- The one field of the retrieved Stripe checkout session that
`verifyStripe` reads. -/
structure StripeSession where
  payment_status : String
deriving Repr, DecidableEq

/-- Embeds `orderModel.findByIdAndUpdate(orderId, { payment: true })`. -/
def setPayment : List OrderRec → String → List OrderRec
  | [], _ => []
  | o :: rest, oid =>
    if o.oid = oid then { o with payment := true } :: rest
    else o :: setPayment rest oid

/-- Embeds `orderModel.findByIdAndUpdate(orderId, { status })`. -/
def setStatus : List OrderRec → String → String → List OrderRec
  | [], _, _ => []
  | o :: rest, oid, st =>
    if o.oid = oid then { o with status := st } :: rest
    else o :: setStatus rest oid st

/-- Embeds `orderModel.findByIdAndDelete(orderId)`. -/
def deleteOrder : List OrderRec → String → List OrderRec
  | [], _ => []
  | o :: rest, oid => if o.oid = oid then rest else o :: deleteOrder rest oid

/-- Embeds `verifyStripe` from `orderController.ts`.  The retrieved checkout
session is `session` (`none` models `!session`).  Returns the new DB state
and the response's success flag. -/
def verifyStripe (db : DB) (orderId userId : String)
    (session : Option StripeSession) : Except String (DB × Bool) :=
  if ¬ (isValidObjectId orderId && isValidObjectId userId) then
    .error ("Invalid orderId or userId")
  else
    match findOrder db.orders orderId with
    | none => .error ("Order not found")
    | some ord =>
      match session with
      | none => .error ("Stripe session not found")
      | some sess =>
        if sess.payment_status = ("paid") then
          let db1 : DB := { db with products := applyDecs db.products ord.items }
          let db2 : DB := { db1 with orders := setPayment db1.orders orderId }
          let db3 : DB := { db2 with users := clearCart db2.users userId }
          .ok (db3, true)
        else
          .ok ({ db with orders := deleteOrder db.orders orderId }, false)

/-- JS truthiness of the number stored at `m[s]` (`if (cartData[id][size])`):
present and nonzero. -/
def qtyTruthy (m : SizeMap) (s : String) : Bool :=
  match lookupA m s with
  | some v => v ≠ 0
  | none => false

/-- The quantity stored for `(pid, size)`, defaulting to `0` when absent —
the value the cart logic adds onto. -/
def qtyD (cart : CartData) (pid size : String) : Int :=
  match lookupA cart pid with
  | some sm => (lookupA sm size).getD 0
  | none => 0

/-- Embeds `validateProductAndSize` from the cart controller (`src/unnamed/part_011`):
id must be a valid ObjectId, the product must exist and the size must be
offered. -/
def validateProductAndSize (ps : List Product) (id size : String) :
    Except String Product :=
  if ¬ isValidObjectId id then .error ("Invalid productId")
  else
    match productById ps id with
    | none => .error ("Product not found")
    | some product =>
      if ¬ (size ∈ product.sizes) then
        .error (("Size ") ++ size ++ (" is not available for this product"))
      else .ok product

/-- Embeds `addToCart` from the cart controller, acting on the cart mapping the
handler loaded via `getCartData` (user document or cookie) and would persist
via `saveCartData`; an `error` is the handler's thrown failure, in which
case nothing is saved. -/
def addToCart (ps : List Product) (cart : CartData) (id size : String)
    (quantity : Int) : Except String CartData :=
  if id = ("") || size = ("") || quantity < 1 then
    .error ("id, size, and quantity are required and must be valid")
  else
    match validateProductAndSize ps id size with
    | .error e => .error e
    | .ok product =>
      if product.stock < quantity then
        .error (("Insufficient stock. Available: ") ++ toString product.stock)
      else
        match lookupA cart id with
        | some sm =>
          if qtyTruthy sm size then
            let newQuantity := (lookupA sm size).getD 0 + quantity
            if product.stock < newQuantity then
              .error (("Insufficient stock. Available: ") ++ toString product.stock)
            else .ok (setA cart id (setA sm size newQuantity))
          else .ok (setA cart id (setA sm size quantity))
        | none => .ok (setA cart id [(size, quantity)])

/-- Embeds `updateCart` from the cart controller; `quantity : Option Int` models
the possibly-undefined request field. -/
def updateCart (ps : List Product) (cart : CartData) (id size : String)
    (quantity : Option Int) : Except String CartData :=
  match quantity with
  | none => .error ("id, size, and quantity are required and must be valid")
  | some q =>
    if id = ("") || size = ("") || q < 0 then
      .error ("id, size, and quantity are required and must be valid")
    else
      match validateProductAndSize ps id size with
      | .error e => .error e
      | .ok product =>
        match lookupA cart id with
        | none => .error ("Item not found in cart")
        | some sm =>
          if ¬ qtyTruthy sm size then .error ("Item not found in cart")
          else if q = 0 then
            let sm' := eraseA sm size
            if sm'.isEmpty then .ok (eraseA cart id)
            else .ok (setA cart id sm')
          else if product.stock < q then
            .error (("Insufficient stock. Available: ") ++ toString product.stock)
          else .ok (setA cart id (setA sm size q))

/-- Embeds `removeFromCart` from the cart controller. -/
def removeFromCart (ps : List Product) (cart : CartData) (id size : String) :
    Except String CartData :=
  if id = ("") || size = ("") then .error ("id and size are required")
  else
    match validateProductAndSize ps id size with
    | .error e => .error e
    | .ok _ =>
      match lookupA cart id with
      | none => .error ("Item not found in cart")
      | some sm =>
        if ¬ qtyTruthy sm size then .error ("Item not found in cart")
        else
          let sm' := eraseA sm size
          if sm'.isEmpty then .ok (eraseA cart id)
          else .ok (setA cart id sm')

/-- One entry of `ignoredItems` in `mergeCart`. -/
structure IgnoredItem where
  productId : String
  size : String
  reason : String
deriving Repr, DecidableEq

/-- The body of `mergeCart`'s inner `for (const size in sizes)` loop, for
one `(productId, size, quantity)` triple, `product` being the already
resolved product document. -/
def mergeSize (product : Product) (cart : CartData)
    (acc : List IgnoredItem) (pid size : String) (q : Int) :
    CartData × List IgnoredItem :=
  if ¬ (size ∈ product.sizes) then
    (cart, acc ++ [{ productId := pid, size := size, reason := ("Invalid size") }])
  else if product.stock < q then
    (cart, acc ++
      [{ productId := pid, size := size,
         reason := (("Insufficient stock (available: ") ++ toString product.stock ++ (")")) }])
  else
    match lookupA cart pid with
    | some sm =>
      if qtyTruthy sm size then
        let totalQuantity := (lookupA sm size).getD 0 + q
        (setA cart pid (setA sm size (min totalQuantity product.stock)), acc)
      else (setA cart pid (setA sm size (min q product.stock)), acc)
    | none => (setA cart pid [(size, min q product.stock)], acc)

/-- The body of `mergeCart`'s outer `for (const productId in cookieCart)`
loop: resolve the product, or record the whole key as ignored. -/
def mergeProduct (ps : List Product) (st : CartData × List IgnoredItem)
    (pid : String) (sm : SizeMap) : CartData × List IgnoredItem :=
  if ¬ isValidObjectId pid then
    (st.1, st.2 ++ [{ productId := pid, size := (""), reason := ("Invalid productId") }])
  else
    match productById ps pid with
    | none =>
      (st.1, st.2 ++ [{ productId := pid, size := (""), reason := ("Product not found") }])
    | some product =>
      sm.foldl (fun st' sq => mergeSize product st'.1 st'.2 pid sq.1 sq.2) st

/-- Embeds `mergeCart` from the cart controller, acting on the authenticated
user's stored cart (`user.cartData`) and the client cart from the request
body; returns the merged cart the handler persists together with
`ignoredItems`. -/
def mergeCart (ps : List Product) (userCart : CartData)
    (cookieCart : CartData) : CartData × List IgnoredItem :=
  cookieCart.foldl (fun st e => mergeProduct ps st e.1 e.2) (userCart, [])

/-- Embeds `validStatuses` from `updateOrderStatus`. -/
def validStatuses : List String :=
  [("Order Placed"), ("Pending"), ("Shipped"), ("Delivered"), ("Cancelled")]

/-- Embeds `updateOrderStatus` from `orderController.ts`: validate the id and the
status string, then update the order unconditionally. -/
def updateOrderStatus (db : DB) (orderId status : String) :
    Except String DB :=
  if ¬ isValidObjectId orderId then .error ("Invalid orderId")
  else if ¬ (status ∈ validStatuses) then .error ("Invalid status")
  else .ok { db with orders := setStatus db.orders orderId status }

/-! ### Observation helpers and invariants used by the theorem statements -/

/-- The user-reference validation of `validateOrderData` succeeds: the id is
well formed and the user exists. -/
def userOk (db : DB) (uid : String) : Bool :=
  isValidObjectId uid && (findUser db.users uid).isSome

/-- One request line item passes `validateOrderData`'s per-item checks
(product found, stock sufficient, price matches, size offered). -/
def lineOk (ps : List Product) (item : OrderItem) : Bool :=
  match productByName ps item.name with
  | none => false
  | some p =>
    if p.stock < item.quantity then false
    else if p.price ≠ item.price then false
    else if sizeCheckFails item.size p then false
    else true

/-- Every request line item passes the per-item checks. -/
def lineItemsValid (ps : List Product) : List OrderItem → Bool
  | [] => true
  | item :: rest => lineOk ps item && lineItemsValid ps rest

/-- The server-side recomputed item subtotal: catalog price times quantity,
summed over the line items (the catalog price of a missing product reads as
`0`; the value only matters when every item validates). -/
def calcSubtotal (ps : List Product) : List OrderItem → Int
  | [] => 0
  | item :: rest =>
    (match productByName ps item.name with
     | some p => p.price
     | none => 0) * item.quantity + calcSubtotal ps rest

/-- A product with the given id exists in the catalog. -/
def containsId (ps : List Product) (pid : String) : Bool :=
  (productById ps pid).isSome

/-- The stock of the (first) product with the given id, `0` when absent. -/
def stockD (ps : List Product) (pid : String) : Int :=
  ((productById ps pid).map Product.stock).getD 0

/-- Total ordered quantity for one product id across the order lines. -/
def itemsQty : List OrderLine → String → Int
  | [], _ => 0
  | l :: rest, pid => (if l.productId = pid then l.quantity else 0) + itemsQty rest pid

/-- The payment flag of the (first) order with the given id. -/
def paymentOf (os : List OrderRec) (oid : String) : Option Bool :=
  (findOrder os oid).map OrderRec.payment

/-- The status of the (first) order with the given id. -/
def statusOf (os : List OrderRec) (oid : String) : Option String :=
  (findOrder os oid).map OrderRec.status

/-- The cart invariant of the spec's data model, as an executable check:
every retained size map is nonempty (a product key whose last size entry is
removed is pruned) and every retained quantity is strictly positive. -/
def cartWF (cart : CartData) : Bool :=
  cart.all (fun e => (!e.2.isEmpty) && e.2.all (fun sq => 0 < sq.2))

/-- Every stored quantity is bounded by the live stock of its product (for
entries whose product exists in the catalog), as an executable check. -/
def cartLeStock (ps : List Product) (cart : CartData) : Bool :=
  cart.all (fun e => e.2.all (fun sq =>
    match productById ps e.1 with
    | some p => sq.2 ≤ p.stock
    | none => true))

/-- Propositional form of `cartWF`. -/
def CartWF (cart : CartData) : Prop :=
  ∀ e ∈ cart, e.2 ≠ [] ∧ ∀ sq ∈ e.2, 0 < sq.2

/-- Propositional form of `cartLeStock`. -/
def CartLe (ps : List Product) (cart : CartData) : Prop :=
  ∀ e ∈ cart, ∀ sq ∈ e.2, ∀ p, productById ps e.1 = some p → sq.2 ≤ p.stock

/-! ### Association-list lemmas -/

theorem lookupA_setA {α : Type} (m : List (String × α)) (k k' : String) (v : α) :
    lookupA (setA m k v) k' = if k = k' then some v else lookupA m k' := by
  induction m with
  | nil => by_cases h : k = k' <;> simp [setA, lookupA, h]
  | cons e rest ih =>
    obtain ⟨k0, v0⟩ := e
    by_cases h0 : k0 = k
    · subst h0
      by_cases h1 : k0 = k' <;> simp [setA, lookupA, h1]
    · by_cases h1 : k0 = k'
      · subst h1
        have hk : ¬ k = k0 := fun h => h0 h.symm
        simp [setA, lookupA, h0, hk]
      · simp [setA, lookupA, h0, h1, ih]

theorem mem_setA {α : Type} {m : List (String × α)} {k : String} {v : α}
    {e : String × α} (h : e ∈ setA m k v) : e = (k, v) ∨ e ∈ m := by
  induction m with
  | nil => simpa [setA] using h
  | cons e0 rest ih =>
    obtain ⟨k0, v0⟩ := e0
    by_cases h0 : k0 = k
    · subst h0
      simp [setA] at h
      rcases h with h | h
      · exact Or.inl (by simp [h])
      · exact Or.inr (by simp [h])
    · simp [setA, h0] at h
      rcases h with h | h
      · exact Or.inr (by simp [h])
      · rcases ih h with h' | h'
        · exact Or.inl h'
        · exact Or.inr (by simp [h'])

theorem mem_eraseA {α : Type} {m : List (String × α)} {k : String}
    {e : String × α} (h : e ∈ eraseA m k) : e ∈ m := by
  induction m with
  | nil => simp [eraseA] at h
  | cons e0 rest ih =>
    obtain ⟨k0, v0⟩ := e0
    by_cases h0 : k0 = k
    · subst h0
      simp [eraseA] at h
      exact List.mem_cons_of_mem _ h
    · simp [eraseA, h0] at h
      rcases h with h | h
      · simp [h]
      · exact List.mem_cons_of_mem _ (ih h)

theorem setA_ne_nil {α : Type} (m : List (String × α)) (k : String) (v : α) :
    setA m k v ≠ [] := by
  cases m with
  | nil => simp [setA]
  | cons e rest =>
    obtain ⟨k0, v0⟩ := e
    by_cases h0 : k0 = k <;> simp [setA, h0]

theorem lookupA_mem {α : Type} {m : List (String × α)} {k : String} {v : α}
    (h : lookupA m k = some v) : (k, v) ∈ m := by
  induction m with
  | nil => simp [lookupA] at h
  | cons e rest ih =>
    obtain ⟨k0, v0⟩ := e
    by_cases h0 : k0 = k
    · subst h0
      simp [lookupA] at h
      simp [h]
    · simp [lookupA, h0] at h
      exact List.mem_cons_of_mem _ (ih h)

/-- Success flag of a handler run. -/
def exceptOk {α : Type} : Except String α → Bool
  | .ok _ => true
  | .error _ => false

/-! ### Store lemmas -/

theorem productById_decStock (ps : List Product) (pid : String) (q : Int)
    (pid' : String) :
    productById (decStock ps pid q) pid' =
      if pid = pid' then
        (productById ps pid').map (fun p => { p with stock := p.stock - q })
      else productById ps pid' := by
  induction ps with
  | nil => simp [decStock, productById]
  | cons p rest ih =>
    simp only [decStock]
    by_cases h0 : p.id = pid
    · rw [if_pos h0]
      by_cases h1 : pid = pid'
      · subst h1
        simp [productById, List.find?, h0]
      · have h2 : ¬ p.id = pid' := by rw [h0]; exact h1
        simp [productById, List.find?, h1, h2]
    · rw [if_neg h0]
      by_cases h2 : p.id = pid'
      · have h1 : ¬ pid = pid' := fun h => h0 (h2.trans h.symm)
        simp [productById, List.find?, h1, h2]
      · by_cases h1 : pid = pid' <;>
          simpa [productById, List.find?, h1, h2] using ih

theorem containsId_decStock (ps : List Product) (pid : String) (q : Int)
    (pid' : String) :
    containsId (decStock ps pid q) pid' = containsId ps pid' := by
  simp only [containsId, productById_decStock]
  split <;> simp

theorem stockD_decStock (ps : List Product) (pid : String) (q : Int)
    (pid' : String) (h : containsId ps pid' = true) :
    stockD (decStock ps pid q) pid' =
      stockD ps pid' - (if pid = pid' then q else 0) := by
  simp only [stockD, productById_decStock]
  rcases hp : productById ps pid' with _ | p
  · simp [containsId, hp] at h
  · split <;> simp

theorem applyDecs_containsId (lines : List OrderLine) (ps : List Product)
    (pid : String) :
    containsId (applyDecs ps lines) pid = containsId ps pid := by
  induction lines generalizing ps with
  | nil => simp [applyDecs]
  | cons l rest ih =>
    simp only [applyDecs, List.foldl] at *
    rw [ih, containsId_decStock]

theorem applyDecs_stockD (lines : List OrderLine) (ps : List Product)
    (pid : String) (h : containsId ps pid = true) :
    stockD (applyDecs ps lines) pid = stockD ps pid - itemsQty lines pid := by
  induction lines generalizing ps with
  | nil => simp [applyDecs, itemsQty]
  | cons l rest ih =>
    simp only [applyDecs, List.foldl] at *
    have h' : containsId (decStock ps l.productId l.quantity) pid = true := by
      rw [containsId_decStock]; exact h
    rw [ih _ h', stockD_decStock _ _ _ _ h, itemsQty]
    split <;> omega

theorem findUser_clearCart (us : List User) (uid : String) :
    findUser (clearCart us uid) uid =
      (findUser us uid).map (fun u => { u with cartData := [] }) := by
  induction us with
  | nil => simp [clearCart, findUser]
  | cons u rest ih =>
    by_cases h0 : u.uid = uid
    · simp [clearCart, findUser, h0, List.find?]
    · simpa [clearCart, findUser, h0, List.find?] using ih

theorem findOrder_setPayment (os : List OrderRec) (oid : String) :
    findOrder (setPayment os oid) oid =
      (findOrder os oid).map (fun o => { o with payment := true }) := by
  induction os with
  | nil => simp [setPayment, findOrder]
  | cons o rest ih =>
    by_cases h0 : o.oid = oid
    · simp [setPayment, findOrder, h0, List.find?]
    · simpa [setPayment, findOrder, h0, List.find?] using ih

theorem findOrder_setStatus (os : List OrderRec) (oid st : String) :
    findOrder (setStatus os oid st) oid =
      (findOrder os oid).map (fun o => { o with status := st }) := by
  induction os with
  | nil => simp [setStatus, findOrder]
  | cons o rest ih =>
    by_cases h0 : o.oid = oid
    · simp [setStatus, findOrder, h0, List.find?]
    · simpa [setStatus, findOrder, h0, List.find?] using ih

theorem findOrder_deleteOrder (os : List OrderRec) (oid : String)
    (h : (os.map OrderRec.oid).Nodup) :
    findOrder (deleteOrder os oid) oid = none := by
  induction os with
  | nil => simp [deleteOrder, findOrder]
  | cons o rest ih =>
    simp only [List.map, List.nodup_cons] at h
    by_cases h0 : o.oid = oid
    · subst h0
      simp only [deleteOrder, if_pos rfl, findOrder]
      rw [List.find?_eq_none]
      intro o' ho'
      simp only [decide_eq_true_eq]
      intro he
      exact h.1 (by rw [← he]; exact List.mem_map_of_mem _ ho')
    · simpa [deleteOrder, findOrder, h0, List.find?] using ih h.2

/-! ### Validation lemmas -/

theorem validateItems_isOk (ps : List Product) (items : List OrderItem) :
    exceptOk (validateItems ps items) = lineItemsValid ps items := by
  induction items with
  | nil => simp [validateItems, lineItemsValid, exceptOk]
  | cons item rest ih =>
    rcases hp : productByName ps item.name with _ | p
    · simp [validateItems, lineItemsValid, lineOk, hp, exceptOk]
    · by_cases h1 : p.stock < item.quantity
      · simp [validateItems, lineItemsValid, lineOk, hp, h1, exceptOk]
      · by_cases h2 : p.price ≠ item.price
        · simp [validateItems, lineItemsValid, lineOk, hp, h1, h2, exceptOk]
        · by_cases h3 : sizeCheckFails item.size p
          · simp [validateItems, lineItemsValid, lineOk, hp, h1, h2, h3, exceptOk]
          · rcases hv : validateItems ps rest with e | pr <;>
              simp [validateItems, lineItemsValid, lineOk, hp, h1, h2, h3, hv,
                exceptOk, ← ih]

theorem validateItems_amt (ps : List Product) (items : List OrderItem) :
    ∀ (ls : List OrderLine) (amt : Int),
      validateItems ps items = .ok (ls, amt) → amt = calcSubtotal ps items := by
  induction items with
  | nil =>
    intro ls amt hv
    simp only [validateItems, Except.ok.injEq, Prod.mk.injEq] at hv
    simp [calcSubtotal, ← hv.2]
  | cons item rest ih =>
    intro ls amt hv
    rcases hp : productByName ps item.name with _ | p <;>
      simp only [validateItems, hp] at hv
    · exact absurd hv (by simp)
    · by_cases h1 : p.stock < item.quantity
      · simp [h1] at hv
      · by_cases h2 : p.price ≠ item.price
        · simp [h1, h2] at hv
        · by_cases h3 : sizeCheckFails item.size p
          · simp [h1, h2, h3] at hv
          · rcases hv' : validateItems ps rest with e | pr
            · simp [h1, h2, h3, hv'] at hv
            · obtain ⟨ls', amt'⟩ := pr
              simp [h1, h2, h3, hv'] at hv
              rcases hv with ⟨hls, hamt⟩
              rw [ih ls' amt' hv'] at hamt
              simp only [calcSubtotal, hp]
              linarith [hamt]

theorem cartWF_iff (cart : CartData) : cartWF cart = true ↔ CartWF cart := by
  simp only [cartWF, CartWF, List.all_eq_true, Bool.and_eq_true,
    Bool.not_eq_true', decide_eq_true_eq]
  constructor
  · intro h e he
    obtain ⟨h1, h2⟩ := h e he
    refine ⟨?_, h2⟩
    intro hnil
    rw [hnil] at h1
    simp at h1
  · intro h e he
    obtain ⟨h1, h2⟩ := h e he
    refine ⟨?_, h2⟩
    cases hsm : e.2 with
    | nil => exact absurd hsm h1
    | cons a l => simp [hsm]

theorem cartLeStock_iff (ps : List Product) (cart : CartData) :
    cartLeStock ps cart = true ↔ CartLe ps cart := by
  simp only [cartLeStock, CartLe, List.all_eq_true]
  constructor
  · intro h e he sq hsq p hp
    have h2 := h e he sq hsq
    rw [hp] at h2
    simpa using h2
  · intro h e he sq hsq
    rcases hp : productById ps e.1 with _ | p
    · simp
    · simpa using h e he sq hsq p hp

/-! ### Concrete example data (used by counterexamples and witnesses) -/

/-- A well-formed ObjectId string, used as a user id. -/
def uidA : String := "aaaaaaaaaaaaaaaaaaaaaaaa"

/-- A well-formed ObjectId string, used as a product id. -/
def pidB : String := "bbbbbbbbbbbbbbbbbbbbbbbb"

/-- A well-formed ObjectId string that matches no catalog product. -/
def pidC : String := "cccccccccccccccccccccccc"

/-- A well-formed ObjectId string, used as an order id. -/
def oidD : String := "dddddddddddddddddddddddd"

/-- A catalog product with stock 5. -/
def prodShirt : Product :=
  { id := pidB, name := ("Shirt"), price := 100, stock := 5, sizes := [("M"), ("L")] }

/-- The same product with stock 3. -/
def prodS3 : Product :=
  { id := pidB, name := ("Shirt"), price := 100, stock := 3, sizes := [("M")] }

/-- An account whose cart holds 2 units of the shirt in size M. -/
def userA : User := { uid := uidA, cartData := [(pidB, [(("M"), 2)])] }

/-- A store with one user, one product and no orders. -/
def db0 : DB := { users := [userA], products := [prodShirt], orders := [] }

/-- The same store with no users at all. -/
def dbNoUser : DB := { users := [], products := [prodShirt], orders := [] }

/-- A request for 2 shirts at the correct catalog price and the correct
total (2 * 100 + 50). -/
def reqGood : OrderReq :=
  { userId := uidA,
    items := [{ name := ("Shirt"), price := 100, quantity := 2, size := some ("M") }],
    amount := 250 }

/-- The order lines `validateOrderData` produces for `reqGood`. -/
def lsEx : List OrderLine :=
  [{ productId := pidB, name := ("Shirt"), quantity := 2, price := 100,
     size := some ("M") }]

/-! ### Order placement: acceptance condition -/

theorem validateOrderData_ok (db : DB) (uid : String) (items : List OrderItem)
    (u : User) (ls : List OrderLine) (amt : Int)
    (h : validateOrderData db uid items = .ok (u, ls, amt)) :
    isValidObjectId uid = true ∧ findUser db.users uid = some u ∧
      validateItems db.products items = .ok (ls, amt) := by
  by_cases hu : isValidObjectId uid
  · rcases hfu : findUser db.users uid with _ | u'
    · simp [validateOrderData, hu, hfu] at h
    · rcases hv : validateItems db.products items with e | pr
      · simp [validateOrderData, hu, hfu, hv] at h
      · obtain ⟨ls', amt'⟩ := pr
        simp only [validateOrderData, hu, hfu, hv, not_true, if_false,
          ite_false, ite_true, if_true, Bool.not_true, Except.ok.injEq,
          Prod.mk.injEq] at h
        rcases h with ⟨h1, h2, h3⟩
        subst h1; subst h2; subst h3
        exact ⟨hu, rfl, rfl⟩
  · simp [validateOrderData, hu] at h

theorem placeOrder_isOk (db : DB) (req : OrderReq) (newOid : String) :
    exceptOk (placeOrder db req newOid) =
      (userOk db req.userId && lineItemsValid db.products req.items &&
        decide (req.amount =
          calcSubtotal db.products req.items + DELIVERY_CHARGES)) := by
  by_cases hu : isValidObjectId req.userId
  · rcases hfu : findUser db.users req.userId with _ | u
    · simp [placeOrder, validateOrderData, userOk, hu, hfu, exceptOk]
    · rcases hv : validateItems db.products req.items with e | pr
      · have hE := validateItems_isOk db.products req.items
        rw [hv] at hE
        simp [placeOrder, validateOrderData, userOk, hu, hfu, hv, exceptOk, ← hE]
      · obtain ⟨ls, amt⟩ := pr
        have hE := validateItems_isOk db.products req.items
        rw [hv] at hE
        have hamt := validateItems_amt db.products req.items ls amt hv
        by_cases hA : amt + DELIVERY_CHARGES = req.amount
        · have : req.amount = calcSubtotal db.products req.items + DELIVERY_CHARGES := by
            omega
          simp [placeOrder, validateOrderData, userOk, hu, hfu, hv, hA,
            exceptOk, ← hE, this]
        · have : ¬ (req.amount = calcSubtotal db.products req.items + DELIVERY_CHARGES) := by
            omega
          simp [placeOrder, validateOrderData, userOk, hu, hfu, hv, hA,
            exceptOk, this]
  · simp [placeOrder, validateOrderData, userOk, hu, exceptOk]

theorem placeOrderStripe_isOk (db : DB) (req : OrderReq) (newOid : String) :
    exceptOk (placeOrderStripe db req newOid) =
      (userOk db req.userId && lineItemsValid db.products req.items &&
        decide (req.amount =
          calcSubtotal db.products req.items + DELIVERY_CHARGES)) := by
  by_cases hu : isValidObjectId req.userId
  · rcases hfu : findUser db.users req.userId with _ | u
    · simp [placeOrderStripe, validateOrderData, userOk, hu, hfu, exceptOk]
    · rcases hv : validateItems db.products req.items with e | pr
      · have hE := validateItems_isOk db.products req.items
        rw [hv] at hE
        simp [placeOrderStripe, validateOrderData, userOk, hu, hfu, hv,
          exceptOk, ← hE]
      · obtain ⟨ls, amt⟩ := pr
        have hE := validateItems_isOk db.products req.items
        rw [hv] at hE
        have hamt := validateItems_amt db.products req.items ls amt hv
        by_cases hA : amt + DELIVERY_CHARGES = req.amount
        · have : req.amount = calcSubtotal db.products req.items + DELIVERY_CHARGES := by
            omega
          simp [placeOrderStripe, validateOrderData, userOk, hu, hfu, hv, hA,
            exceptOk, ← hE, this]
        · have : ¬ (req.amount = calcSubtotal db.products req.items + DELIVERY_CHARGES) := by
            omega
          simp [placeOrderStripe, validateOrderData, userOk, hu, hfu, hv, hA,
            exceptOk, this]
  · simp [placeOrderStripe, validateOrderData, userOk, hu, exceptOk]

/-- C1 (amended): order placement (COD and Stripe paths) is accepted exactly
when the user reference validates (well-formed id of an existing user),
every line item validates (product found, stock sufficient, price matches,
size offered), and the claimed amount equals the recomputed subtotal plus
the delivery charge; it is rejected in every other case. -/
theorem claim_C1 (db : DB) (req : OrderReq) (newOid : String) :
    exceptOk (placeOrder db req newOid) =
      (userOk db req.userId && lineItemsValid db.products req.items &&
        decide (req.amount =
          calcSubtotal db.products req.items + DELIVERY_CHARGES)) ∧
    exceptOk (placeOrderStripe db req newOid) =
      (userOk db req.userId && lineItemsValid db.products req.items &&
        decide (req.amount =
          calcSubtotal db.products req.items + DELIVERY_CHARGES)) :=
  ⟨placeOrder_isOk db req newOid, placeOrderStripe_isOk db req newOid⟩

/-- C1 counterexample: a request whose every line item validates and whose
claimed total matches exactly is still rejected when the referenced user
does not exist, so "rejected if and only if the recomputed total differs or
some line item fails validation" is false as stated. -/
theorem claim_C1_counterexample :
    lineItemsValid dbNoUser.products reqGood.items = true ∧
    reqGood.amount = calcSubtotal dbNoUser.products reqGood.items + DELIVERY_CHARGES ∧
    placeOrder dbNoUser reqGood oidD = .error ("User not found") ∧
    placeOrderStripe dbNoUser reqGood oidD = .error ("User not found") :=
  ⟨rfl, by decide, rfl, rfl⟩

/-- An order with the given id exists in the store. -/
def containsOrder (os : List OrderRec) (oid : String) : Bool :=
  (findOrder os oid).isSome

/-- The Stripe-path order `placeOrderStripe db0 reqGood oidD` persists. -/
def ordStripe : OrderRec :=
  { oid := oidD, userId := uidA, items := lsEx, totalAmount := 250,
    paymentMethod := ("Stripe"), payment := false, status := ("Order Placed") }

/-- A store holding one pending Stripe order. -/
def dbWithOrder : DB :=
  { users := [userA], products := [prodShirt], orders := [ordStripe] }

/-- C8: for every stored order and requested status string,
`updateOrderStatus` applies the transition unconditionally (whatever the
order's current status) iff the status belongs to the fixed enumeration,
and rejects any status outside it with no update. -/
theorem claim_C8 (db : DB) (oid status : String)
    (hex : containsOrder db.orders oid = true)
    (hid : isValidObjectId oid = true) :
    (status ∈ validStatuses →
      updateOrderStatus db oid status =
        .ok { db with orders := setStatus db.orders oid status } ∧
      statusOf (setStatus db.orders oid status) oid = some status) ∧
    (status ∉ validStatuses →
      updateOrderStatus db oid status = .error ("Invalid status")) := by
  constructor
  · intro hs
    refine ⟨by simp [updateOrderStatus, hid, hs], ?_⟩
    rcases hfo : findOrder db.orders oid with _ | o
    · simp [containsOrder, hfo] at hex
    · simp [statusOf, findOrder_setStatus, hfo]
  · intro hs
    simp [updateOrderStatus, hid, hs]

/-- C8 witness: on a concrete store holding one order with status
"Order Placed", requesting "Shipped" succeeds and requesting "Refunded"
(outside the enumeration) is rejected. -/
theorem claim_C8_witness :
    (updateOrderStatus dbWithOrder oidD ("Shipped") =
      .ok { dbWithOrder with orders := setStatus dbWithOrder.orders oidD ("Shipped") } ∧
     statusOf (setStatus dbWithOrder.orders oidD ("Shipped")) oidD = some ("Shipped")) ∧
    updateOrderStatus dbWithOrder oidD ("Refunded") = .error ("Invalid status") := by
  constructor
  · exact (claim_C8 dbWithOrder oidD ("Shipped") rfl rfl).1 (by decide)
  · exact (claim_C8 dbWithOrder oidD ("Refunded") rfl rfl).2 (by decide)

/-- C9: once the user and the line items validate, the claimed amount is
accepted on both placement paths iff it equals the recomputed item subtotal
(catalog price times quantity) plus the fixed delivery charge of 50; a
claimed amount equal to the bare subtotal is always rejected with
"Invalid total amount". -/
theorem claim_C9 (db : DB) (req : OrderReq) (newOid : String)
    (u : User) (ls : List OrderLine) (amt : Int)
    (hu : isValidObjectId req.userId = true)
    (hfu : findUser db.users req.userId = some u)
    (hv : validateItems db.products req.items = .ok (ls, amt)) :
    DELIVERY_CHARGES = 50 ∧
    amt = calcSubtotal db.products req.items ∧
    (exceptOk (placeOrder db req newOid) = true ↔
      req.amount = calcSubtotal db.products req.items + DELIVERY_CHARGES) ∧
    (exceptOk (placeOrderStripe db req newOid) = true ↔
      req.amount = calcSubtotal db.products req.items + DELIVERY_CHARGES) ∧
    (req.amount = calcSubtotal db.products req.items →
      placeOrder db req newOid = .error ("Invalid total amount") ∧
      placeOrderStripe db req newOid = .error ("Invalid total amount")) := by
  have hamt := validateItems_amt db.products req.items ls amt hv
  have hE := validateItems_isOk db.products req.items
  rw [hv] at hE
  refine ⟨rfl, hamt, ?_, ?_, ?_⟩
  · rw [placeOrder_isOk]
    simp [userOk, hu, hfu, ← hE, exceptOk]
  · rw [placeOrderStripe_isOk]
    simp [userOk, hu, hfu, ← hE, exceptOk]
  · intro hAm
    have hA : amt + DELIVERY_CHARGES ≠ req.amount := by
      rw [hamt, hAm]
      simp only [DELIVERY_CHARGES]
      omega
    constructor
    · simp [placeOrder, validateOrderData, hu, hfu, hv, hA]
    · simp [placeOrderStripe, validateOrderData, hu, hfu, hv, hA]

/-- C9 witness: the concrete request for 2 shirts at 100 each is accepted
with claimed amount 250 (= 200 + 50) and rejected with claimed amount 200
(the bare subtotal). -/
theorem claim_C9_witness :
    exceptOk (placeOrder db0 reqGood oidD) = true ∧
    placeOrder db0 { reqGood with amount := 200 } oidD =
      .error ("Invalid total amount") := by
  constructor
  · exact (claim_C9 db0 reqGood oidD userA lsEx 200 rfl rfl rfl).2.2.1.mpr (by decide)
  · exact ((claim_C9 db0 { reqGood with amount := 200 } oidD userA lsEx 200
      rfl rfl rfl).2.2.2.2 (by decide)).1

/-- C2: every accepted COD order is persisted with status "Order Placed"
and payment flag false, the account's cart snapshot is set to empty, and
each product's stock drops by exactly the total ordered quantity of that
product (exactly one decrement pass over the order lines). -/
theorem claim_C2 (db : DB) (req : OrderReq) (newOid : String)
    (db' : DB) (ord : OrderRec)
    (h : placeOrder db req newOid = .ok (db', ord)) :
    ord.status = ("Order Placed") ∧ ord.payment = false ∧
    ord.paymentMethod = ("COD") ∧ ord ∈ db'.orders ∧
    (findUser db'.users req.userId).map User.cartData = some [] ∧
    ∀ pid : String, containsId db.products pid = true →
      stockD db'.products pid = stockD db.products pid - itemsQty ord.items pid := by
  rcases hV : validateOrderData db req.userId req.items with e | t
  · simp [placeOrder, hV] at h
  · obtain ⟨u, ls, amt⟩ := t
    obtain ⟨hu, hfu, hval⟩ := validateOrderData_ok db req.userId req.items u ls amt hV
    by_cases hA : amt + DELIVERY_CHARGES = req.amount
    · simp [placeOrder, hV, hA] at h
      rcases h with ⟨hdb, hord⟩
      subst hdb; subst hord
      refine ⟨rfl, rfl, rfl, by simp, ?_, ?_⟩
      · simp [findUser_clearCart, hfu]
      · intro pid hpid
        simpa using applyDecs_stockD ls db.products pid hpid
    · simp [placeOrder, hV, hA] at h

/-- The persisted COD order for `reqGood`. -/
def ordCOD : OrderRec := { ordStripe with paymentMethod := ("COD") }

/-- The store after the COD placement of `reqGood` in `db0`. -/
def dbAfterCOD : DB :=
  { users := [{ uid := uidA, cartData := [] }],
    products := [{ prodShirt with stock := 3 }], orders := [ordCOD] }

/-- C2 witness: the concrete COD placement of 2 shirts out of stock 5
yields stock 3, an empty cart and a persisted "Order Placed" record. -/
theorem claim_C2_witness :
    ordCOD.status = ("Order Placed") ∧ ordCOD.payment = false ∧
    ordCOD.paymentMethod = ("COD") ∧ ordCOD ∈ dbAfterCOD.orders ∧
    (findUser dbAfterCOD.users reqGood.userId).map User.cartData = some [] ∧
    stockD dbAfterCOD.products pidB =
      stockD db0.products pidB - itemsQty ordCOD.items pidB := by
  have H := claim_C2 db0 reqGood oidD dbAfterCOD ordCOD rfl
  exact ⟨H.1, H.2.1, H.2.2.1, H.2.2.2.1, H.2.2.2.2.1, H.2.2.2.2.2 pidB rfl⟩

/-- C3: a Stripe-path order is persisted unpaid with no stock decrement and
no cart clearing; `verifyStripe` on a session reported paid decrements
stock per order line, marks the order paid and empties the user's cart;
on a session not reported paid it deletes the order and touches nothing
else. -/
theorem claim_C3 :
    (∀ (db : DB) (req : OrderReq) (newOid : String) (db' : DB) (ord : OrderRec),
      placeOrderStripe db req newOid = .ok (db', ord) →
      ord.payment = false ∧ ord.paymentMethod = ("Stripe") ∧
      ord ∈ db'.orders ∧ db'.products = db.products ∧ db'.users = db.users) ∧
    (∀ (db : DB) (oid uid : String) (sess : StripeSession) (ord : OrderRec)
        (db' : DB) (b : Bool),
      findOrder db.orders oid = some ord →
      sess.payment_status = ("paid") →
      verifyStripe db oid uid (some sess) = .ok (db', b) →
      b = true ∧ paymentOf db'.orders oid = some true ∧
      (findUser db'.users uid).map User.cartData =
        (findUser db.users uid).map (fun _ => ([] : CartData)) ∧
      ∀ pid : String, containsId db.products pid = true →
        stockD db'.products pid = stockD db.products pid - itemsQty ord.items pid) ∧
    (∀ (db : DB) (oid uid : String) (sess : StripeSession) (db' : DB) (b : Bool),
      sess.payment_status ≠ ("paid") →
      verifyStripe db oid uid (some sess) = .ok (db', b) →
      b = false ∧ db'.products = db.products ∧ db'.users = db.users ∧
      ((db.orders.map OrderRec.oid).Nodup → findOrder db'.orders oid = none)) := by
  refine ⟨?_, ?_, ?_⟩
  · intro db req newOid db' ord h
    rcases hV : validateOrderData db req.userId req.items with e | t
    · simp [placeOrderStripe, hV] at h
    · obtain ⟨u, ls, amt⟩ := t
      by_cases hA : amt + DELIVERY_CHARGES = req.amount
      · simp [placeOrderStripe, hV, hA] at h
        rcases h with ⟨hdb, hord⟩
        subst hdb; subst hord
        exact ⟨rfl, rfl, by simp, rfl, rfl⟩
      · simp [placeOrderStripe, hV, hA] at h
  · intro db oid uid sess ord db' b hfo hpaid h
    by_cases hids : isValidObjectId oid && isValidObjectId uid
    · simp [verifyStripe, hids, hfo, hpaid] at h
      rcases h with ⟨hdb, hb⟩
      subst hdb; subst hb
      refine ⟨rfl, ?_, ?_, ?_⟩
      · simp [paymentOf, findOrder_setPayment, hfo]
      · simp [findUser_clearCart, Option.map_map]
        rfl
      · intro pid hpid
        simpa using applyDecs_stockD ord.items db.products pid hpid
    · simp [verifyStripe, hids] at h
  · intro db oid uid sess db' b hne h
    by_cases hids : isValidObjectId oid && isValidObjectId uid
    · rcases hfo : findOrder db.orders oid with _ | ord0
      · simp [verifyStripe, hids, hfo] at h
      · simp [verifyStripe, hids, hfo, hne] at h
        rcases h with ⟨hdb, hb⟩
        subst hdb; subst hb
        exact ⟨rfl, rfl, rfl, fun hnd => findOrder_deleteOrder db.orders oid hnd⟩
    · simp [verifyStripe, hids] at h

/-- The checkout session as reported paid. -/
def sessPaid : StripeSession := { payment_status := ("paid") }

/-- A checkout session not reported paid. -/
def sessUnpaid : StripeSession := { payment_status := ("unpaid") }

/-- The store after one successful verification of `ordStripe`. -/
def dbAfterVerify : DB :=
  { users := [{ uid := uidA, cartData := [] }],
    products := [{ prodShirt with stock := 3 }],
    orders := [{ ordStripe with payment := true }] }

/-- The store after a failed verification of `ordStripe`. -/
def dbAfterCancel : DB :=
  { users := [userA], products := [prodShirt], orders := [] }

/-- C3 witness: on the concrete store, Stripe placement leaves stock and
cart untouched; paid verification empties the cart, sets `payment` and
drops stock from 5 to 3; unpaid verification deletes the order. -/
theorem claim_C3_witness :
    (ordStripe.payment = false ∧ ordStripe.paymentMethod = ("Stripe") ∧
     ordStripe ∈ dbWithOrder.orders ∧ dbWithOrder.products = db0.products ∧
     dbWithOrder.users = db0.users) ∧
    (paymentOf dbAfterVerify.orders oidD = some true ∧
     (findUser dbAfterVerify.users uidA).map User.cartData =
       (findUser dbWithOrder.users uidA).map (fun _ => ([] : CartData)) ∧
     stockD dbAfterVerify.products pidB =
       stockD dbWithOrder.products pidB - itemsQty ordStripe.items pidB) ∧
    (findOrder dbAfterCancel.orders oidD = none ∧
     dbAfterCancel.products = dbWithOrder.products) := by
  refine ⟨?_, ?_, ?_⟩
  · have H := claim_C3.1 db0 reqGood oidD dbWithOrder ordStripe rfl
    exact ⟨H.1, H.2.1, H.2.2.1, H.2.2.2.1, H.2.2.2.2⟩
  · have H := claim_C3.2.1 dbWithOrder oidD uidA sessPaid ordStripe
      dbAfterVerify true rfl rfl rfl
    exact ⟨H.2.1, H.2.2.1, H.2.2.2 pidB rfl⟩
  · have H := claim_C3.2.2 dbWithOrder oidD uidA sessUnpaid
      dbAfterCancel false (by decide) rfl
    exact ⟨H.2.2.2 (by decide), H.2.1⟩

/-- C10: `verifyStripe` does not consult the stored payment flag: after a
successful verification of a paid session (which sets the flag), running
the same verification again succeeds again and decrements each product's
stock a second time, leaving it down by twice the ordered quantity. -/
theorem claim_C10 (db : DB) (oid uid : String) (sess : StripeSession)
    (ord : OrderRec)
    (hid : isValidObjectId oid = true) (huid : isValidObjectId uid = true)
    (hfo : findOrder db.orders oid = some ord)
    (hpaid : sess.payment_status = ("paid")) :
    ∃ db1 db2 : DB,
      verifyStripe db oid uid (some sess) = .ok (db1, true) ∧
      paymentOf db1.orders oid = some true ∧
      verifyStripe db1 oid uid (some sess) = .ok (db2, true) ∧
      ∀ pid : String, containsId db.products pid = true →
        stockD db2.products pid =
          stockD db.products pid - 2 * itemsQty ord.items pid := by
  have hids : (isValidObjectId oid && isValidObjectId uid) = true := by
    rw [hid, huid]; rfl
  have hfo1 : findOrder (setPayment db.orders oid) oid =
      some { ord with payment := true } := by
    simp [findOrder_setPayment, hfo]
  refine ⟨DB.mk (clearCart db.users uid) (applyDecs db.products ord.items)
      (setPayment db.orders oid),
    DB.mk (clearCart (clearCart db.users uid) uid)
      (applyDecs (applyDecs db.products ord.items) ord.items)
      (setPayment (setPayment db.orders oid) oid),
    ?_, ?_, ?_, ?_⟩
  · simp [verifyStripe, hids, hfo, hpaid]
  · simp [paymentOf, findOrder_setPayment, hfo]
  · simp [verifyStripe, hids, hfo1, hpaid]
  · intro pid hpid
    have hc1 : containsId (applyDecs db.products ord.items) pid = true := by
      rw [applyDecs_containsId]; exact hpid
    have e1 := applyDecs_stockD ord.items db.products pid hpid
    have e2 := applyDecs_stockD ord.items (applyDecs db.products ord.items) pid hc1
    show stockD (applyDecs (applyDecs db.products ord.items) ord.items) pid =
      stockD db.products pid - 2 * itemsQty ord.items pid
    rw [e2, e1]
    ring

/-- The store after verifying the same paid order twice. -/
def dbAfterVerify2 : DB :=
  { users := [{ uid := uidA, cartData := [] }],
    products := [{ prodShirt with stock := 1 }],
    orders := [{ ordStripe with payment := true }] }

/-- C10 witness: verifying the concrete paid order twice takes stock from
5 to 1 (two decrements of 2) even though the order is already marked paid
after the first run. -/
theorem claim_C10_witness :
    verifyStripe dbWithOrder oidD uidA (some sessPaid) = .ok (dbAfterVerify, true) ∧
    paymentOf dbAfterVerify.orders oidD = some true ∧
    verifyStripe dbAfterVerify oidD uidA (some sessPaid) = .ok (dbAfterVerify2, true) ∧
    stockD dbAfterVerify2.products pidB =
      stockD dbWithOrder.products pidB - 2 * itemsQty ordStripe.items pidB := by
  obtain ⟨db1, db2, h1, h2, h3, h4⟩ :=
    claim_C10 dbWithOrder oidD uidA sessPaid ordStripe rfl rfl rfl rfl
  have e := h1.symm.trans
    (show verifyStripe dbWithOrder oidD uidA (some sessPaid) =
       .ok (dbAfterVerify, true) from rfl)
  injection e with e'
  injection e' with e1 e2
  subst e1
  have f := h3.symm.trans
    (show verifyStripe dbAfterVerify oidD uidA (some sessPaid) =
       .ok (dbAfterVerify2, true) from rfl)
  injection f with f'
  injection f' with f1 f2
  subst f1
  exact ⟨h1, h2, h3, h4 pidB rfl⟩

/-! ### Cart lemmas -/

theorem qtyTruthy_some {sm : SizeMap} {size : String}
    (h : qtyTruthy sm size = true) : ∃ v, lookupA sm size = some v ∧ v ≠ 0 := by
  unfold qtyTruthy at h
  rcases hlk : lookupA sm size with _ | v
  · rw [hlk] at h; simp at h
  · rw [hlk] at h
    simp only [decide_eq_true_eq] at h
    exact ⟨v, rfl, h⟩

theorem CartLe_setA (ps : List Product) (cart : CartData) (product : Product)
    (pid : String) (sm' : SizeMap)
    (hp : productById ps pid = some product)
    (h : CartLe ps cart)
    (hsm : ∀ sq ∈ sm', sq.2 ≤ product.stock ∨
      (∃ sm, lookupA cart pid = some sm ∧ sq ∈ sm)) :
    CartLe ps (setA cart pid sm') := by
  intro e he sq hsq p hpp
  rcases mem_setA he with he' | he'
  · subst he'
    have hpp' : productById ps pid = some p := hpp
    rw [hp] at hpp'
    injection hpp' with hpe
    subst hpe
    have hsq' : sq ∈ sm' := hsq
    rcases hsm sq hsq' with hle | ⟨sm, hlk, hin⟩
    · exact hle
    · exact h (pid, sm) (lookupA_mem hlk) sq hin product hp
  · exact h e he' sq hsq p hpp

theorem mergeSize_le (ps : List Product) (product : Product) (cart : CartData)
    (acc : List IgnoredItem) (pid size : String) (q : Int)
    (hp : productById ps pid = some product) (h : CartLe ps cart) :
    CartLe ps (mergeSize product cart acc pid size q).1 := by
  unfold mergeSize
  by_cases h1 : ¬ (size ∈ product.sizes)
  · rw [if_pos h1]; exact h
  · rw [if_neg h1]
    by_cases h2 : product.stock < q
    · rw [if_pos h2]; exact h
    · rw [if_neg h2]
      rcases hlk : lookupA cart pid with _ | sm
      · simp only [hlk]
        apply CartLe_setA ps cart product pid _ hp h
        intro sq hsq
        simp only [List.mem_singleton] at hsq
        subst hsq
        exact Or.inl (min_le_right _ _)
      · simp only [hlk]
        by_cases h3 : qtyTruthy sm size
        · rw [if_pos h3]
          apply CartLe_setA ps cart product pid _ hp h
          intro sq hsq
          rcases mem_setA hsq with hsq' | hsq'
          · subst hsq'
            exact Or.inl (min_le_right _ _)
          · exact Or.inr ⟨sm, hlk, hsq'⟩
        · rw [if_neg h3]
          apply CartLe_setA ps cart product pid _ hp h
          intro sq hsq
          rcases mem_setA hsq with hsq' | hsq'
          · subst hsq'
            exact Or.inl (min_le_right _ _)
          · exact Or.inr ⟨sm, hlk, hsq'⟩

theorem mergeSizes_fold_le (ps : List Product) (product : Product)
    (pid : String) (hp : productById ps pid = some product) :
    ∀ (l : List (String × Int)) (st : CartData × List IgnoredItem),
      CartLe ps st.1 →
      CartLe ps (l.foldl
        (fun st' sq => mergeSize product st'.1 st'.2 pid sq.1 sq.2) st).1 := by
  intro l
  induction l with
  | nil => intro st h; exact h
  | cons sq rest ih =>
    intro st h
    simp only [List.foldl]
    exact ih _ (mergeSize_le ps product st.1 st.2 pid sq.1 sq.2 hp h)

theorem mergeProduct_le (ps : List Product) (st : CartData × List IgnoredItem)
    (pid : String) (sm : SizeMap) (h : CartLe ps st.1) :
    CartLe ps (mergeProduct ps st pid sm).1 := by
  unfold mergeProduct
  by_cases h1 : ¬ isValidObjectId pid
  · rw [if_pos h1]; exact h
  · rw [if_neg h1]
    rcases hp : productById ps pid with _ | product
    · simp only [hp]; exact h
    · simp only [hp]
      exact mergeSizes_fold_le ps product pid hp sm st h

theorem mergeCart_fold_le (ps : List Product) :
    ∀ (cc : CartData) (st : CartData × List IgnoredItem), CartLe ps st.1 →
      CartLe ps (cc.foldl (fun st e => mergeProduct ps st e.1 e.2) st).1 := by
  intro cc
  induction cc with
  | nil => intro st h; exact h
  | cons e rest ih =>
    intro st h
    simp only [List.foldl]
    exact ih _ (mergeProduct_le ps st e.1 e.2 h)

/-- C4 (amended): every cart entry the merge writes is clamped to the
product's live stock, so whenever every entry of the initial account cart
is within live stock, every entry of the merged cart is as well, for all
guest-cart quantities; entries of the account cart that no guest triple
touches are carried over unchanged, clamping them is not attempted. -/
theorem claim_C4 (ps : List Product) (userCart cookieCart : CartData)
    (h : cartLeStock ps userCart = true) :
    cartLeStock ps (mergeCart ps userCart cookieCart).1 = true := by
  rw [cartLeStock_iff] at h ⊢
  exact mergeCart_fold_le ps cookieCart (userCart, []) h

/-- An account cart holding 10 units of the stock-3 product. -/
def cartOver : CartData := [(pidB, [(("M"), 10)])]

/-- C4 counterexample: merging an empty guest cart into an account cart
already holding quantity 10 of a product whose live stock is 3 leaves the
entry at 10, so the merged cart violates the stock bound. -/
theorem claim_C4_counterexample :
    (mergeCart [prodS3] cartOver []).1 = cartOver ∧
    prodS3.stock = 3 ∧
    lookupA cartOver pidB = some [(("M"), 10)] ∧
    cartLeStock [prodS3] (mergeCart [prodS3] cartOver []).1 = false :=
  ⟨rfl, rfl, rfl, rfl⟩

/-- C4 witness: an account cart holding 2 of the stock-3 product merged
with a guest cart asking for 9 more stays within stock (the entry is
clamped to 3). -/
theorem claim_C4_witness :
    cartLeStock [prodS3] [(pidB, [(("M"), 2)])] = true ∧
    cartLeStock [prodS3]
      (mergeCart [prodS3] [(pidB, [(("M"), 2)])] [(pidB, [(("M"), 9)])]).1 = true :=
  ⟨by decide, claim_C4 [prodS3] [(pidB, [(("M"), 2)])] [(pidB, [(("M"), 9)])]
    (by decide)⟩

theorem mergeSize_acc (product : Product) (cart : CartData)
    (acc : List IgnoredItem) (pid size : String) (q : Int) :
    mergeSize product cart acc pid size q =
      ((mergeSize product cart [] pid size q).1,
        acc ++ (mergeSize product cart [] pid size q).2) := by
  unfold mergeSize
  split
  · simp
  · split
    · simp
    · split
      · split <;> simp
      · simp

theorem mergeSizes_fold_acc (product : Product) (pid : String) :
    ∀ (l : List (String × Int)) (c : CartData) (acc : List IgnoredItem),
      l.foldl (fun st' sq => mergeSize product st'.1 st'.2 pid sq.1 sq.2) (c, acc) =
        ((l.foldl (fun st' sq => mergeSize product st'.1 st'.2 pid sq.1 sq.2)
            (c, [])).1,
          acc ++ (l.foldl (fun st' sq => mergeSize product st'.1 st'.2 pid sq.1 sq.2)
            (c, [])).2) := by
  intro l
  induction l with
  | nil => intro c acc; simp
  | cons sq rest ih =>
    intro c acc
    simp only [List.foldl]
    rw [mergeSize_acc product c acc pid sq.1 sq.2]
    generalize mergeSize product c [] pid sq.1 sq.2 = m
    obtain ⟨mc, mi⟩ := m
    rw [ih mc (acc ++ mi), ih mc mi]
    simp

theorem mergeProduct_acc (ps : List Product) (c : CartData)
    (acc : List IgnoredItem) (pid : String) (sm : SizeMap) :
    mergeProduct ps (c, acc) pid sm =
      ((mergeProduct ps (c, []) pid sm).1,
        acc ++ (mergeProduct ps (c, []) pid sm).2) := by
  unfold mergeProduct
  split
  · simp
  · split
    · simp
    · exact mergeSizes_fold_acc _ pid sm c acc

theorem mergeProducts_fold_acc (ps : List Product) :
    ∀ (cc : CartData) (c : CartData) (acc : List IgnoredItem),
      cc.foldl (fun st e => mergeProduct ps st e.1 e.2) (c, acc) =
        ((cc.foldl (fun st e => mergeProduct ps st e.1 e.2) (c, [])).1,
          acc ++ (cc.foldl (fun st e => mergeProduct ps st e.1 e.2) (c, [])).2) := by
  intro cc
  induction cc with
  | nil => intro c acc; simp
  | cons e rest ih =>
    intro c acc
    simp only [List.foldl]
    rw [mergeProduct_acc ps c acc e.1 e.2]
    generalize mergeProduct ps (c, []) e.1 e.2 = m
    obtain ⟨mc, mi⟩ := m
    rw [ih mc (acc ++ mi), ih mc mi]
    simp

/-- C7: a guest-cart triple that fails validation is reported in the
ignored list with its reason while the rest of the guest cart is still
merged: concretely, merging a guest cart holding an unknown product id and
a valid item reports the former with reason "Product not found" and merges
the latter; and in general the merge of a concatenation processes the
second part from the state the first part produced, accumulating both
ignored lists, so no failure aborts the remaining items. -/
theorem claim_C7 :
    (mergeCart [prodShirt] [] [(pidC, [(("M"), 1)]), (pidB, [(("M"), 2)])] =
      ([(pidB, [(("M"), 2)])],
        [{ productId := pidC, size := (""), reason := ("Product not found") }])) ∧
    ∀ (ps : List Product) (cart xs ys : CartData),
      mergeCart ps cart (xs ++ ys) =
        ((mergeCart ps (mergeCart ps cart xs).1 ys).1,
          (mergeCart ps cart xs).2 ++
            (mergeCart ps (mergeCart ps cart xs).1 ys).2) := by
  constructor
  · rfl
  · intro ps cart xs ys
    unfold mergeCart
    rw [List.foldl_append]
    generalize List.foldl (fun st e => mergeProduct ps st e.1 e.2)
      (cart, ([] : List IgnoredItem)) xs = st
    obtain ⟨sc, si⟩ := st
    exact mergeProducts_fold_acc ps ys sc si

theorem CartWF_setA (cart : CartData) (pid : String) (sm' : SizeMap)
    (h : CartWF cart) (hne : sm' ≠ [])
    (hpos : ∀ sq ∈ sm', 0 < sq.2 ∨
      (∃ sm, lookupA cart pid = some sm ∧ sq ∈ sm)) :
    CartWF (setA cart pid sm') := by
  intro e he
  rcases mem_setA he with he' | he'
  · subst he'
    refine ⟨hne, ?_⟩
    intro sq hsq
    have hsq' : sq ∈ sm' := hsq
    rcases hpos sq hsq' with hp | ⟨sm, hlk, hin⟩
    · exact hp
    · exact (h (pid, sm) (lookupA_mem hlk)).2 sq hin
  · exact h e he'

theorem CartWF_eraseA (cart : CartData) (pid : String) (h : CartWF cart) :
    CartWF (eraseA cart pid) :=
  fun e he => h e (mem_eraseA he)

theorem qtyTruthy_false {sm : SizeMap} {size : String} {pid : String}
    {cart : CartData} (hwf : CartWF cart) (hlk : lookupA cart pid = some sm)
    (ht : ¬ qtyTruthy sm size = true) : lookupA sm size = none := by
  rcases hlk2 : lookupA sm size with _ | v
  · rfl
  · exfalso
    apply ht
    unfold qtyTruthy
    rw [hlk2]
    have hvpos : 0 < v := (hwf (pid, sm) (lookupA_mem hlk)).2 (size, v) (lookupA_mem hlk2)
    simp only [decide_eq_true_eq]
    omega

theorem addToCart_WF (ps : List Product) (cart : CartData) (id size : String)
    (q : Int) (cart' : CartData) (hwf : CartWF cart)
    (h : addToCart ps cart id size q = .ok cart') : CartWF cart' := by
  unfold addToCart at h
  split at h
  · simp at h
  · rename_i hc0
    have hq : ¬ q < 1 := by
      intro hq'
      exact hc0 (by simp [hq'])
    rcases hvps : validateProductAndSize ps id size with e | product
    · rw [hvps] at h
      exact Except.noConfusion h
    · simp only [hvps] at h
      split at h
      · simp at h
      · rcases hlk : lookupA cart id with _ | sm
        · simp only [hlk] at h
          injection h with h'
          subst h'
          apply CartWF_setA cart id _ hwf (by simp)
          intro sq hsq
          simp only [List.mem_singleton] at hsq
          subst hsq
          exact Or.inl (by omega)
        · simp only [hlk] at h
          split at h
          · rename_i ht
            split at h
            · simp at h
            · injection h with h'
              subst h'
              obtain ⟨v, hv, hvne⟩ := qtyTruthy_some ht
              have hvpos : 0 < v :=
                (hwf (id, sm) (lookupA_mem hlk)).2 (size, v) (lookupA_mem hv)
              apply CartWF_setA cart id _ hwf (setA_ne_nil _ _ _)
              intro sq hsq
              rcases mem_setA hsq with hsq' | hsq'
              · subst hsq'
                refine Or.inl ?_
                simp only [hv, Option.getD_some]
                omega
              · exact Or.inr ⟨sm, hlk, hsq'⟩
          · injection h with h'
            subst h'
            apply CartWF_setA cart id _ hwf (setA_ne_nil _ _ _)
            intro sq hsq
            rcases mem_setA hsq with hsq' | hsq'
            · subst hsq'
              exact Or.inl (by omega)
            · exact Or.inr ⟨sm, hlk, hsq'⟩

theorem updateCart_WF (ps : List Product) (cart : CartData) (id size : String)
    (q : Int) (cart' : CartData) (hwf : CartWF cart)
    (h : updateCart ps cart id size (some q) = .ok cart') : CartWF cart' := by
  simp only [updateCart] at h
  split at h
  · simp at h
  · rename_i hc0
    have hq0 : ¬ q < 0 := by
      intro hq'
      exact hc0 (by simp [hq'])
    rcases hvps : validateProductAndSize ps id size with e | product
    · rw [hvps] at h
      exact Except.noConfusion h
    · simp only [hvps] at h
      rcases hlk : lookupA cart id with _ | sm
      · rw [hlk] at h
        exact Except.noConfusion h
      · simp only [hlk] at h
        split at h
        · simp at h
        · split at h
          · rename_i hqz
            split at h
            · injection h with h'
              subst h'
              exact CartWF_eraseA cart id hwf
            · rename_i hne
              injection h with h'
              subst h'
              apply CartWF_setA cart id _ hwf ?_ ?_
              · intro hnil
                rw [hnil] at hne
                exact hne rfl
              · intro sq hsq
                exact Or.inr ⟨sm, hlk, mem_eraseA hsq⟩
          · rename_i hqnz
            split at h
            · simp at h
            · injection h with h'
              subst h'
              apply CartWF_setA cart id _ hwf (setA_ne_nil _ _ _)
              intro sq hsq
              rcases mem_setA hsq with hsq' | hsq'
              · subst hsq'
                refine Or.inl ?_
                simp only []
                omega
              · exact Or.inr ⟨sm, hlk, hsq'⟩

theorem removeFromCart_WF (ps : List Product) (cart : CartData)
    (id size : String) (cart' : CartData) (hwf : CartWF cart)
    (h : removeFromCart ps cart id size = .ok cart') : CartWF cart' := by
  unfold removeFromCart at h
  split at h
  · simp at h
  · rcases hvps : validateProductAndSize ps id size with e | product
    · rw [hvps] at h
      exact Except.noConfusion h
    · simp only [hvps] at h
      rcases hlk : lookupA cart id with _ | sm
      · rw [hlk] at h
        exact Except.noConfusion h
      · simp only [hlk] at h
        split at h
        · simp at h
        · split at h
          · injection h with h'
            subst h'
            exact CartWF_eraseA cart id hwf
          · rename_i hne
            injection h with h'
            subst h'
            apply CartWF_setA cart id _ hwf ?_ ?_
            · intro hnil
              rw [hnil] at hne
              exact hne rfl
            · intro sq hsq
              exact Or.inr ⟨sm, hlk, mem_eraseA hsq⟩

theorem mergeSize_wf (product : Product) (cart : CartData)
    (acc : List IgnoredItem) (pid size : String) (q : Int)
    (hq : 0 < q) (h : CartWF cart) :
    CartWF (mergeSize product cart acc pid size q).1 := by
  unfold mergeSize
  by_cases h1 : ¬ (size ∈ product.sizes)
  · rw [if_pos h1]; exact h
  · rw [if_neg h1]
    by_cases h2 : product.stock < q
    · rw [if_pos h2]; exact h
    · rw [if_neg h2]
      rcases hlk : lookupA cart pid with _ | sm
      · simp only [hlk]
        apply CartWF_setA cart pid _ h (by simp)
        intro sq hsq
        simp only [List.mem_singleton] at hsq
        subst hsq
        refine Or.inl ?_
        simp only []
        rw [min_def]
        split <;> omega
      · simp only [hlk]
        by_cases h3 : qtyTruthy sm size
        · rw [if_pos h3]
          obtain ⟨v, hv, hvne⟩ := qtyTruthy_some h3
          have hvpos : 0 < v := (h (pid, sm) (lookupA_mem hlk)).2 (size, v) (lookupA_mem hv)
          apply CartWF_setA cart pid _ h (setA_ne_nil _ _ _)
          intro sq hsq
          rcases mem_setA hsq with hsq' | hsq'
          · subst hsq'
            refine Or.inl ?_
            simp only [hv, Option.getD_some]
            rw [min_def]
            split <;> omega
          · exact Or.inr ⟨sm, hlk, hsq'⟩
        · rw [if_neg h3]
          apply CartWF_setA cart pid _ h (setA_ne_nil _ _ _)
          intro sq hsq
          rcases mem_setA hsq with hsq' | hsq'
          · subst hsq'
            refine Or.inl ?_
            simp only []
            rw [min_def]
            split <;> omega
          · exact Or.inr ⟨sm, hlk, hsq'⟩

theorem mergeSizes_fold_wf (product : Product) (pid : String) :
    ∀ (l : List (String × Int)) (st : CartData × List IgnoredItem),
      (∀ sq ∈ l, 0 < sq.2) → CartWF st.1 →
      CartWF (l.foldl
        (fun st' sq => mergeSize product st'.1 st'.2 pid sq.1 sq.2) st).1 := by
  intro l
  induction l with
  | nil => intro st _ h; exact h
  | cons sq rest ih =>
    intro st hpos h
    simp only [List.foldl]
    exact ih _ (fun x hx => hpos x (List.mem_cons_of_mem _ hx))
      (mergeSize_wf product st.1 st.2 pid sq.1 sq.2
        (hpos sq (List.mem_cons_self _ _)) h)

theorem mergeProduct_wf (ps : List Product) (st : CartData × List IgnoredItem)
    (pid : String) (sm : SizeMap)
    (hpos : ∀ sq ∈ sm, 0 < sq.2) (h : CartWF st.1) :
    CartWF (mergeProduct ps st pid sm).1 := by
  unfold mergeProduct
  by_cases h1 : ¬ isValidObjectId pid
  · rw [if_pos h1]; exact h
  · rw [if_neg h1]
    rcases hp : productById ps pid with _ | product
    · simp only [hp]; exact h
    · simp only [hp]
      exact mergeSizes_fold_wf product pid sm st hpos h

theorem mergeCart_fold_wf (ps : List Product) :
    ∀ (cc : CartData) (st : CartData × List IgnoredItem),
      (∀ e ∈ cc, ∀ sq ∈ e.2, 0 < sq.2) → CartWF st.1 →
      CartWF (cc.foldl (fun st e => mergeProduct ps st e.1 e.2) st).1 := by
  intro cc
  induction cc with
  | nil => intro st _ h; exact h
  | cons e rest ih =>
    intro st hpos h
    simp only [List.foldl]
    exact ih _ (fun x hx sq hsq => hpos x (List.mem_cons_of_mem _ hx) sq hsq)
      (mergeProduct_wf ps st e.1 e.2
        (hpos e (List.mem_cons_self _ _)) h)

/-- C5: every cart operation (`addToCart`, `updateCart`, `removeFromCart`,
`mergeCart`) preserves the cart invariant: every retained entry has a
strictly positive quantity, and a product key whose last size entry goes is
pruned (no empty size maps survive). -/
theorem claim_C5 :
    (∀ (ps : List Product) (cart : CartData) (id size : String) (q : Int)
        (cart' : CartData), cartWF cart = true →
      addToCart ps cart id size q = .ok cart' → cartWF cart' = true) ∧
    (∀ (ps : List Product) (cart : CartData) (id size : String) (q : Int)
        (cart' : CartData), cartWF cart = true →
      updateCart ps cart id size (some q) = .ok cart' → cartWF cart' = true) ∧
    (∀ (ps : List Product) (cart : CartData) (id size : String)
        (cart' : CartData), cartWF cart = true →
      removeFromCart ps cart id size = .ok cart' → cartWF cart' = true) ∧
    (∀ (ps : List Product) (userCart cookieCart : CartData),
      cartWF userCart = true → cartWF cookieCart = true →
      cartWF (mergeCart ps userCart cookieCart).1 = true) := by
  refine ⟨?_, ?_, ?_, ?_⟩
  · intro ps cart id size q cart' hwf h
    rw [cartWF_iff] at hwf ⊢
    exact addToCart_WF ps cart id size q cart' hwf h
  · intro ps cart id size q cart' hwf h
    rw [cartWF_iff] at hwf ⊢
    exact updateCart_WF ps cart id size q cart' hwf h
  · intro ps cart id size cart' hwf h
    rw [cartWF_iff] at hwf ⊢
    exact removeFromCart_WF ps cart id size cart' hwf h
  · intro ps uc cc h1 h2
    rw [cartWF_iff] at h1 h2 ⊢
    exact mergeCart_fold_wf ps cc (uc, [])
      (fun e he sq hsq => (h2 e he).2 sq hsq) h1

/-- C5 witness: on a concrete well-formed cart holding 2 of the stock-3
product, each of the four operations (add 1 more, update to 0, remove the
entry, merge 1 more from a guest cart) yields a well-formed cart again —
in particular the update-to-0 and remove paths prune the entry and its
product key. -/
theorem claim_C5_witness :
    cartWF [(pidB, [(("M"), 3)])] = true ∧
    cartWF ([] : CartData) = true ∧
    cartWF (mergeCart [prodS3] [(pidB, [(("M"), 2)])]
      [(pidB, [(("M"), 1)])]).1 = true := by
  refine ⟨?_, ?_, ?_⟩
  · exact claim_C5.1 [prodS3] [(pidB, [(("M"), 2)])] pidB ("M") 1
      [(pidB, [(("M"), 3)])] (by decide) rfl
  · exact claim_C5.2.1 [prodS3] [(pidB, [(("M"), 2)])] pidB ("M") 0
      [] (by decide) rfl
  · exact claim_C5.2.2.2 [prodS3] [(pidB, [(("M"), 2)])]
      [(pidB, [(("M"), 1)])] (by decide) (by decide)

/-- C6 (amended): for a well-formed cart and a valid, offered
(product, size), `addToCart` succeeds exactly when the already-stored
quantity plus the requested quantity fits within current stock, and on
success it increases the stored quantity by exactly the requested amount;
a request whose new total would exceed stock is rejected (even when the
requested quantity alone is within stock), the handler never mutates the
catalog, and the spec's example (empty cart, stock 3, quantity 5) is
rejected with the insufficient-stock reason. -/
theorem claim_C6 (ps : List Product) (cart : CartData) (id size : String)
    (q : Int) (product : Product)
    (hwf : cartWF cart = true)
    (hid : ¬ id = (""))
    (hsize : ¬ size = (""))
    (hq : 1 ≤ q)
    (hvps : validateProductAndSize ps id size = .ok product) :
    (exceptOk (addToCart ps cart id size q) = true ↔
      qtyD cart id size + q ≤ product.stock) ∧
    (∀ cart', addToCart ps cart id size q = .ok cart' →
      qtyD cart' id size = qtyD cart id size + q) ∧
    addToCart [prodS3] [] pidB ("M") 5 =
      .error (("Insufficient stock. Available: ") ++ toString prodS3.stock) := by
  rw [cartWF_iff] at hwf
  have hcond : (decide (id = ("")) || decide (size = ("")) || decide (q < 1)) = false := by
    simp [hid, hsize]
    omega
  refine ⟨?_, ?_, rfl⟩
  · unfold addToCart
    rw [hcond]
    simp only [Bool.false_eq_true, if_false, hvps]
    rcases hlk : lookupA cart id with _ | sm
    · simp only [qtyD, hlk]
      by_cases h2 : product.stock < q
      · simp [h2, exceptOk]
      · simp [h2, exceptOk]
        omega
    · simp only [qtyD, hlk]
      by_cases ht : qtyTruthy sm size
      · obtain ⟨v, hv, hvne⟩ := qtyTruthy_some ht
        have hvpos : 0 < v :=
          (hwf (id, sm) (lookupA_mem hlk)).2 (size, v) (lookupA_mem hv)
        simp only [hv, Option.getD_some, ht, if_true]
        by_cases h2 : product.stock < q
        · have h3 : product.stock < v + q := by omega
          simp [h2, h3, exceptOk]
        · by_cases h3 : product.stock < v + q
          · simp [h2, h3, exceptOk]
          · simp [h2, h3, exceptOk]
            omega
      · have hnone : lookupA sm size = none := qtyTruthy_false hwf hlk ht
        simp only [hnone, Option.getD_none, ht, if_false]
        by_cases h2 : product.stock < q
        · simp [h2, exceptOk]
        · simp [h2, exceptOk]
          omega
  · intro cart' h
    unfold addToCart at h
    rw [hcond] at h
    simp only [Bool.false_eq_true, if_false, hvps] at h
    split at h
    · exact Except.noConfusion h
    · rcases hlk : lookupA cart id with _ | sm
      · simp only [hlk] at h
        injection h with h'
        subst h'
        simp [qtyD, hlk, lookupA_setA, lookupA]
      · simp only [hlk] at h
        by_cases ht : qtyTruthy sm size
        · rw [if_pos ht] at h
          split at h
          · exact Except.noConfusion h
          · injection h with h'
            subst h'
            simp [qtyD, hlk, lookupA_setA]
        · rw [if_neg ht] at h
          injection h with h'
          subst h'
          have hnone : lookupA sm size = none := qtyTruthy_false hwf hlk ht
          simp [qtyD, hlk, hnone, lookupA_setA]

/-- C6 counterexample: with stock 3 and a cart already holding 2, a request
for 2 more has requested quantity within stock (2 ≤ 3) yet is rejected, so
the stored quantity does not increase — the claim's universal "quantity ≤
stock implies the add succeeds and adds exactly quantity" is false. -/
theorem claim_C6_counterexample :
    (2 : Int) ≤ prodS3.stock ∧
    validateProductAndSize [prodS3] pidB ("M") = .ok prodS3 ∧
    addToCart [prodS3] [(pidB, [(("M"), 2)])] pidB ("M") 2 =
      .error (("Insufficient stock. Available: ") ++ toString prodS3.stock) :=
  ⟨by decide, rfl, rfl⟩

/-- C6 witness: adding 1 to the cart already holding 2 (stock 3) succeeds
and the stored quantity becomes exactly 2 + 1; the spec's stock-3/add-5
example is rejected with the insufficient-stock reason. -/
theorem claim_C6_witness :
    exceptOk (addToCart [prodS3] [(pidB, [(("M"), 2)])] pidB ("M") 1) = true ∧
    qtyD [(pidB, [(("M"), 3)])] pidB ("M") =
      qtyD [(pidB, [(("M"), 2)])] pidB ("M") + 1 ∧
    addToCart [prodS3] [] pidB ("M") 5 =
      .error (("Insufficient stock. Available: ") ++ toString prodS3.stock) := by
  have H := claim_C6 [prodS3] [(pidB, [(("M"), 2)])] pidB ("M") 1 prodS3
    (by decide) (by decide) (by decide) (by decide) rfl
  exact ⟨H.1.mpr (by decide), H.2.1 [(pidB, [(("M"), 3)])] rfl, H.2.2⟩

end Evouqe
